import Mathlib

/-!
Verification of the metaes interpreter core against its specification.

This file gives a shallow embedding of the parts of the repository that the
claims concern:

* the meta-function bridge (`evaluateMetaFunction`, `createMetaFunctionWrapper`),
* the base node evaluators (`Identifier`, `SetProperty` from lib/interpreter/base.ts),
* the evaluation entry points (`metaesEval`, `MetaesContext.evaluate`).

Host values are modelled by the inductive `Value`.  Numbers are modelled as
integers: no claim depends on floating-point behavior.  Exception packets
(records with a `type`, a `value`, an optional `message` and an optional
`location` field) are modelled by the `Value.packet` constructor; the
`location` field stores the node identity as a natural number.

The repository evaluates in continuation-passing style.  Calls to the success
continuation `c`, the error continuation `cerr`, the interceptor and the
`onError` hook are observable effects; we model a run of the bridge as the
list of these events (`Event`), in the order the code performs them.

The dispatcher `evaluate` (applyEval.ts), the environment operation
`getValue` (environment.ts) and the `NotImplementedException` constructor
(exceptions.ts) are not part of the sources; they are modelled from the
specification where needed, and each such definition is marked
`Modelled from the spec:` in its documentation.
-/

namespace Metaes

/-- Host values: the untyped values the interpreter and the host exchange.
Exception packets are host objects with `type`, `value`, `message` and
`location` fields and are therefore one constructor of `Value`. -/
inductive Value where
  | undefined
  | null
  | bool (b : Bool)
  | num (n : Int)
  | str (s : String)
  | arr (elems : List Value)
  | packet (ptype : String) (pvalue : Value) (message : Option String) (loc : Option Nat)

/-- Truthiness of a host value, as the host language defines it: `undefined`,
`null`, `false`, `0` and the empty string are falsy, everything else is
truthy.  (Numbers are modelled as integers, so the NaN case does not arise.) -/
def truthy : Value → Bool
  | Value.undefined => false
  | Value.null => false
  | Value.bool b => b
  | Value.num n => n != 0
  | Value.str s => s != ""
  | Value.arr _ => true
  | Value.packet _ _ _ _ => true

/-- Reading the `value` property of a host value: a packet yields its `value`
field, reading a property of `null` or `undefined` raises a host TypeError
(modelled as `none`), and any other value has no `value` property, so the
read yields `undefined`. -/
def valueProp : Value → Option Value
  | Value.undefined => none
  | Value.null => none
  | Value.packet _ v _ _ => some v
  | _ => some Value.undefined

/-- A property record of a host object or of an environment frame: an
association list from names to values.  Later writes overwrite earlier
bindings in place, as host-object property assignment does. -/
abbrev Frame := List (String × Value)

/-- Property/binding write: replace the binding when the name is present,
append it otherwise. -/
def setVal (f : Frame) (name : String) (v : Value) : Frame :=
  match f with
  | [] => [(name, v)]
  | (k, w) :: rest => if k = name then (k, v) :: rest else (k, w) :: setVal rest name v

/-- Property/binding read inside one frame. -/
def lookupFrame (f : Frame) (name : String) : Option Value :=
  match f with
  | [] => none
  | (k, w) :: rest => if k = name then some w else lookupFrame rest name

/-- Lexical environments: a chain of frames.  `root` is a frame without a
`prev` back-reference, `frame` links to its enclosing environment. -/
inductive Env where
  | root (values : Frame)
  | frame (values : Frame) (prev : Env)

/-- Modelled from the spec: `NotImplementedException(message, location)` from
exceptions.ts builds a host exception record carrying the
NotImplementedException tag, a message and an optional source location. -/
def NotImplementedException (message : String) (loc : Option Nat) : Value :=
  Value.packet "NotImplementedException" Value.undefined (some message) loc

/-- Function parameter patterns, as evaluateMetaFunction distinguishes them:
plain identifiers, rest elements, and any other (unsupported) pattern.  Only
the unsupported pattern carries a node identity, because only there does the
code observe the parameter node (as the exception location). -/
inductive Param where
  | ident (name : String)
  | restElem (name : String)
  | other (nodeId : Nat) (ptype : String)

/-- The message evaluateMetaFunction builds for an unsupported parameter
pattern. -/
def paramErrorMsg (t : String) : String :=
  "Not supported type (" ++ t ++ ") of function param."

/-- The parameter-binding loop of evaluateMetaFunction, mutating the new
frame.  An `ident` parameter binds `args[i]` (`undefined` past the end of
`args`) and increments `i`; a `restElem` binds `args.slice(i)` and, since the
`break` in the source leaves only the `switch`, the loop continues with the
next parameter and `i` unchanged; any other pattern throws a
`NotImplementedException` carrying the parameter node as location. -/
def bindParamsGo : List Param → List Value → Nat → Frame → Except Value Frame
  | [], _, _, acc => Except.ok acc
  | Param.ident name :: ps, args, i, acc =>
      bindParamsGo ps args (i + 1) (setVal acc name (args.getD i Value.undefined))
  | Param.restElem name :: ps, args, i, acc =>
      bindParamsGo ps args i (setVal acc name (Value.arr (args.drop i)))
  | Param.other nid t :: _, _, _, _ =>
      Except.error (NotImplementedException (paramErrorMsg t) (some nid))

/-- The values of the frame evaluateMetaFunction builds for a call: `this`
and `arguments` first, then the bound parameters. -/
def bindParams (params : List Param) (args : List Value) (thisObj : Value) :
    Except Value Frame :=
  bindParamsGo params args 0 [("this", thisObj), ("arguments", Value.arr args)]

/-- Parameter binding following the claim text: identical to `bindParamsGo`
except that processing stops at a `restElem` parameter.  Used to compare the
code against the words of the specification. -/
def paramBindStopGo : List Param → List Value → Nat → Frame → Except Value Frame
  | [], _, _, acc => Except.ok acc
  | Param.ident name :: ps, args, i, acc =>
      paramBindStopGo ps args (i + 1) (setVal acc name (args.getD i Value.undefined))
  | Param.restElem name :: _, args, i, acc =>
      Except.ok (setVal acc name (Value.arr (args.drop i)))
  | Param.other nid t :: _, _, _, _ =>
      Except.error (NotImplementedException (paramErrorMsg t) (some nid))

/-- Claim-side variant of `bindParams`, stopping at a rest element. -/
def paramBindStop (params : List Param) (args : List Value) (thisObj : Value) :
    Except Value Frame :=
  paramBindStopGo params args 0 [("this", thisObj), ("arguments", Value.arr args)]

/-- The function node a meta-function closes over: its node identity and its
parameter list.  The body is not represented syntactically; its behavior is
supplied to `evaluateMetaFunction` as a list of `BodyStep`s. -/
structure FunctionNode where
  nodeId : Nat
  params : List Param

/-- The configuration of a meta-function, reduced to what the bridge
observes of it: whether `config` itself is truthy and whether `config.onError`
is truthy (both are guarded with `&&` in the source). -/
structure MFConfig where
  present : Bool
  hasOnError : Bool

/-- A meta-function: the function node, the captured closure environment and
the configuration snapshot. -/
structure MetaesFunction where
  e : FunctionNode
  closure : Env
  config : MFConfig

/-- Observable events of one meta-function dispatch, in the order the code
performs them. -/
inductive Event where
  | callC (v : Value)
  | callCerr (v : Value)
  | enterEv
  | exitEv (v : Value)
  | onErrorEv (v : Value)
  | evalBody

/-- Modelled from the spec: one completion signal the body evaluation
delivers to the bridge.  The dispatcher `evaluate` (applyEval.ts, not in the
sources) invokes the success continuation with a result or the error
continuation with an exception packet; evaluation is synchronous, and a host
throw raised by the invoked continuation propagates to the caller of
`evaluate` (the specification forbids relying on host try/catch across CPS
boundaries, so nothing between the continuation and the try block of
evaluateMetaFunction intercepts it).  A well-behaved evaluator delivers
exactly one signal; lists of signals model evaluators that call a
continuation several times or call both. -/
inductive BodyStep where
  | success (v : Value)
  | err (ptype : String) (pvalue : Value) (message : Option String) (loc : Option Nat)

/-- The `_interceptorAfter` helper of evaluateMetaFunction: emit the
interceptor exit event unless it was already emitted for this dispatch; the
emission itself is guarded by `config &&`, the flag is set regardless. -/
def interceptorAfter (cfg : MFConfig) (flag : Bool) (v : Value) : List Event × Bool :=
  if flag then ([], flag)
  else ((if cfg.present then [Event.exitEv v] else []), true)

/-- The two continuations evaluateMetaFunction passes to `evaluate`, run on a
list of body completion signals.  Returns the events produced, the final
state of the exit-guard flag, and the value of a host throw escaping the
continuation, if any.  A success signal runs `c(result)` and then
`_interceptorAfter`.  An error signal with type `ReturnStatement` runs
`c(packet.value)` and then `_interceptorAfter`.  Any other error signal sets
`location` on the packet, forwards it to `cerr`, and then throws
`packet.value`; the throw skips the `_interceptorAfter` call and aborts the
remaining signals. -/
def runBody (cfg : MFConfig) (eId : Nat) (flag : Bool) :
    List BodyStep → List Event × Bool × Option Value
  | [] => ([], flag, none)
  | BodyStep.success v :: steps =>
      let a := interceptorAfter cfg flag v
      let r := runBody cfg eId a.2 steps
      (Event.callC v :: (a.1 ++ r.1), r.2.1, r.2.2)
  | BodyStep.err t v msg _loc :: steps =>
      if t = "ReturnStatement" then
        let a := interceptorAfter cfg flag v
        let r := runBody cfg eId a.2 steps
        (Event.callC v :: (a.1 ++ r.1), r.2.1, r.2.2)
      else
        ([Event.callCerr (Value.packet t v msg (some eId))], flag, some v)

/-- The environment evaluateMetaFunction builds for a call: the new frame
(with `this`, `arguments` and the bound parameters) whose `prev` is the
closure of the meta-function. -/
def metaFunctionCallEnv (m : MetaesFunction) (thisObj : Value) (args : List Value) :
    Except Value Env :=
  Except.map (fun f => Env.frame f m.closure) (bindParams m.e.params args thisObj)

/-- The observable trace of `evaluateMetaFunction(metaFunction, c, cerr,
thisObject, args)`, given the body behavior.  When parameter binding throws,
`config.onError` is notified when configured and the outer catch forwards
the exception to `cerr`; the interceptor enter event and the body evaluation
never happen.  Otherwise the enter event is emitted (when `config` is
truthy), the body is evaluated, and a host value thrown by the error
continuation is caught by the outer catch, which forwards it to `cerr`. -/
def evaluateMetaFunction (m : MetaesFunction) (thisObj : Value) (args : List Value)
    (body : List BodyStep) : List Event :=
  match bindParams m.e.params args thisObj with
  | Except.error errVal =>
      (if m.config.present && m.config.hasOnError then [Event.onErrorEv errVal] else [])
        ++ [Event.callCerr errVal]
  | Except.ok _ =>
      (if m.config.present then [Event.enterEv] else [])
        ++ Event.evalBody ::
          (let r := runBody m.config m.e.nodeId false body
           r.1 ++ (match r.2.2 with
                   | none => []
                   | some v => [Event.callCerr v]))

/-- The outcome of invoking the host callable produced by
`createMetaFunctionWrapper`: a normal return, a host throw of the recorded
error, or a host TypeError raised while the wrapper itself reads
`exception.value` in its error continuation. -/
inductive WrapperOutcome where
  | returns (v : Value)
  | throws (v : Value)
  | hostError

/-- The wrapper body replayed over the trace of the dispatch: `c` stores the
result, `cerr` stores `exception.value` (a host TypeError when the exception
is `null` or `undefined`); after the dispatch, a truthy recorded error is
thrown, otherwise the recorded result is returned. -/
def wrapperGo : List Event → Value → Value → WrapperOutcome
  | [], result, error => if truthy error then WrapperOutcome.throws error
                         else WrapperOutcome.returns result
  | Event.callC v :: rest, _, error => wrapperGo rest v error
  | Event.callCerr x :: rest, result, _ =>
      match valueProp x with
      | some v => wrapperGo rest result v
      | none => WrapperOutcome.hostError
  | _ :: rest, result, error => wrapperGo rest result error

/-- The host callable produced by `createMetaFunctionWrapper(metaFunction)`,
applied to a `this` value and arguments, given the body behavior. -/
def createMetaFunctionWrapper (m : MetaesFunction) (thisObj : Value)
    (args : List Value) (body : List BodyStep) : WrapperOutcome :=
  wrapperGo (evaluateMetaFunction m thisObj args body) Value.undefined Value.undefined

/-- The outcome of one CPS node evaluator: which continuation it called,
with which value. -/
inductive COut where
  | success (v : Value)
  | error (v : Value)

/-- Pure environment lookup: walk the frame and its `prev` chain until the
name is found. -/
def envLookup (name : String) : Env → Option Value
  | Env.root values => lookupFrame values name
  | Env.frame values prev =>
      match lookupFrame values name with
      | some v => some v
      | none => envLookup name prev

/-- Modelled from the spec: the reference-error host exception `getValue`
delivers for an unbound name; a record with an exception tag and a message,
whose `location` is attached later by the Identifier evaluator. -/
def referenceError (name : String) : Value :=
  Value.packet "ReferenceError" Value.undefined (some (name ++ " is not defined")) none

/-- Modelled from the spec: `getValue(name, c, cerr, env)` from
environment.ts walks the `prev` chain; when the name is bound it calls the
success continuation with the bound value, otherwise it calls the error
continuation with a reference-error host exception.  Rendered as an
`Except`: `ok` is the success continuation, `error` the error
continuation. -/
def getValue (name : String) : Env → Except Value Value
  | Env.root values =>
      match lookupFrame values name with
      | some v => Except.ok v
      | none => Except.error (referenceError name)
  | Env.frame values prev =>
      match lookupFrame values name with
      | some v => Except.ok v
      | none => getValue name prev

/-- Setting the `location` property of a host exception: packets record the
node identity, any other value is left unchanged (a property write on a
primitive is silently dropped by the host in sloppy mode). -/
def setLoc (v : Value) (nodeId : Nat) : Value :=
  match v with
  | Value.packet t pv msg _ => Value.packet t pv msg (some nodeId)
  | w => w

/-- The `Identifier` evaluator of lib/interpreter/base.ts: call `getValue`
with the name; on success pass the value to `c` unchanged, on error attach
`location = e` to the exception and pass it to `cerr`. -/
def IdentifierEval (name : String) (nodeId : Nat) (env : Env) : COut :=
  match getValue name env with
  | Except.ok v => COut.success v
  | Except.error exc => COut.error (setLoc exc nodeId)

/-- The compound-assignment operators the host provides (spec section 6: the
host supplies the primitive operators).  `SetProperty` delegates each
supported operator to the corresponding host operation; the claims hold for
every host semantics, so the operations are parameters of the model. -/
structure HostOps where
  add : Value → Value → Value
  sub : Value → Value → Value
  mul : Value → Value → Value
  div : Value → Value → Value
  mod : Value → Value → Value
  shl : Value → Value → Value
  shr : Value → Value → Value
  ushr : Value → Value → Value
  band : Value → Value → Value
  bor : Value → Value → Value
  bxor : Value → Value → Value

/-- Reading `object[property]`: `undefined` when the property is absent. -/
def getProp (obj : Frame) (property : String) : Value :=
  (lookupFrame obj property).getD Value.undefined

/-- One compound-assignment case of `SetProperty`:
`c((object[property] op= value))` computes the new value from the old one,
stores it and passes it to the success continuation. -/
def applyAssign (f : Value → Value → Value) (obj : Frame) (property : String)
    (value : Value) : COut × Frame :=
  (COut.success (f (getProp obj property) value),
   setVal obj property (f (getProp obj property) value))

/-- The `SetProperty` evaluator of lib/interpreter/base.ts: a switch over the
assignment operator; each supported operator performs the corresponding host
compound assignment on `object[property]` and passes the assigned value to
`c`; any other operator reports a `NotImplementedException` through `cerr`
and leaves the object untouched. -/
def SetProperty (ops : HostOps) (obj : Frame) (property : String) (value : Value)
    (operator : String) : COut × Frame :=
  match operator with
  | "=" => (COut.success value, setVal obj property value)
  | "+=" => applyAssign ops.add obj property value
  | "-=" => applyAssign ops.sub obj property value
  | "*=" => applyAssign ops.mul obj property value
  | "/=" => applyAssign ops.div obj property value
  | "%=" => applyAssign ops.mod obj property value
  | "<<=" => applyAssign ops.shl obj property value
  | ">>=" => applyAssign ops.shr obj property value
  | ">>>=" => applyAssign ops.ushr obj property value
  | "&=" => applyAssign ops.band obj property value
  | "|=" => applyAssign ops.bor obj property value
  | "^=" => applyAssign ops.bxor obj property value
  | op => (COut.error (NotImplementedException ("Operator '" ++ op ++ "' is not supported.") none),
           obj)

/-- Claim-side table of the supported assignment operators: the host
operation each operator stands for, `none` for an unsupported operator. -/
def compoundOp (ops : HostOps) : String → Option (Value → Value → Value)
  | "=" => some (fun _ v => v)
  | "+=" => some ops.add
  | "-=" => some ops.sub
  | "*=" => some ops.mul
  | "/=" => some ops.div
  | "%=" => some ops.mod
  | "<<=" => some ops.shl
  | ">>=" => some ops.shr
  | ">>>=" => some ops.ushr
  | "&=" => some ops.band
  | "|=" => some ops.bor
  | "^=" => some ops.bxor
  | _ => none

/-- A concrete host-operation instance (integer addition, other operations
degenerate), used to evaluate the model on concrete inputs. -/
def demoOps : HostOps :=
  { add := fun a b =>
      match a, b with
      | Value.num x, Value.num y => Value.num (x + y)
      | _, _ => Value.undefined,
    sub := fun _ _ => Value.undefined,
    mul := fun _ _ => Value.undefined,
    div := fun _ _ => Value.undefined,
    mod := fun _ _ => Value.undefined,
    shl := fun _ _ => Value.undefined,
    shr := fun _ _ => Value.undefined,
    ushr := fun _ _ => Value.undefined,
    band := fun _ _ => Value.undefined,
    bor := fun _ _ => Value.undefined,
    bxor := fun _ _ => Value.undefined }

/-- Interceptor callbacks, as far as the entry points observe them: either
the no-op function `metaesEval` installs, or a host-provided callback
(identified opaquely). -/
inductive Interceptor where
  | noop
  | host (id : Nat)
deriving DecidableEq

/-- The `EvaluationConfig` record: the fields the modelled entry points read
and write.  `none` models an absent field. -/
structure EvalConfig where
  interceptor : Option Interceptor
  scriptId : Option String
  onError : Option Nat
deriving DecidableEq

/-- The environment argument of `metaesEval`: either a full environment (the
argument has a `values` key) or a bare record of bindings, which gets
wrapped. -/
inductive EnvArg where
  | envObj (e : Env)
  | bare (values : Frame)

/-- The dispatch `metaesEval` hands to the node dispatcher: the resolved
environment and the configuration record in force. -/
structure Dispatch where
  env : Env
  config : EvalConfig

/-- The first statement of `metaesEval`: when `config.interceptor` is absent,
a no-op interceptor is written into the caller-supplied record. -/
def installInterceptor (config : EvalConfig) : EvalConfig :=
  match config.interceptor with
  | none => { config with interceptor := some Interceptor.noop }
  | some _ => config

/-- The `metaesEval` entry point (metaes.ts), on a pre-parsed source (the
claims do not concern the string-parsing and function-reflection paths, so
the parse step is omitted and cannot fail).  The caller-supplied config
record is mutated in place: mutation is modelled by returning the updated
record, together with the dispatch performed and the new value of the global
script-id counter.  When `config.scriptId` is absent, a fresh decimal id is
taken from the counter and written into the record. -/
def metaesEval (environment : EnvArg) (config : EvalConfig) (counter : Nat) :
    Dispatch × EvalConfig × Nat :=
  let config1 := installInterceptor config
  let env := match environment with
    | EnvArg.envObj e => e
    | EnvArg.bare values => Env.root values
  let sc := match config1.scriptId with
    | none => (({ config1 with scriptId := some (toString counter) } : EvalConfig), counter + 1)
    | some _ => (config1, counter)
  ({ env := env, config := sc.1 }, sc.1, sc.2)

/-- The record with a `values` field passed as the environment argument of
`MetaesContext.evaluate`. -/
structure EnvironmentBase where
  values : Frame

/-- A `MetaesContext`: its root environment and its default configuration
(the default continuations play no role in the claims). -/
structure MetaesContext where
  environment : Env
  config : EvalConfig

/-- The `evaluate` method of `MetaesContext`: when an environment argument is
supplied, evaluation runs in a copy of it whose `prev` is the root
environment of the context; the config passed on is a shallow copy of the
supplied config when present, of the default config of the context
otherwise. -/
def MetaesContext.evaluate (ctx : MetaesContext) (environment : Option EnvironmentBase)
    (config : Option EvalConfig) (counter : Nat) : Dispatch × EvalConfig × Nat :=
  let envArg := match environment with
    | some eb => EnvArg.envObj (Env.frame eb.values ctx.environment)
    | none => EnvArg.envObj ctx.environment
  metaesEval envArg (config.getD ctx.config) counter

/-- Shallow merge of two config records, following the words of the claim:
fields present in the override win, absent fields fall back to the base. -/
def mergeConfigs (base override : EvalConfig) : EvalConfig :=
  { interceptor := match override.interceptor with
      | some i => some i
      | none => base.interceptor,
    scriptId := match override.scriptId with
      | some s => some s
      | none => base.scriptId,
    onError := match override.onError with
      | some h => some h
      | none => base.onError }

/-- Discriminator for interceptor exit events. -/
def isExitEv : Event → Bool
  | Event.exitEv _ => true
  | _ => false

/-- Discriminator for error-continuation calls. -/
def isCerrEv : Event → Bool
  | Event.callCerr _ => true
  | _ => false

/-- Number of interceptor exit events in a trace. -/
def countExit (evs : List Event) : Nat := evs.countP isExitEv

/-- A parameter pattern the binding loop supports. -/
def isSimpleParam : Param → Bool
  | Param.other _ _ => false
  | _ => true

/-- Every rest element of the parameter list is in the last position (true
for every parameter list an actual parser produces). -/
def restLastOnly : List Param → Bool
  | [] => true
  | Param.restElem _ :: tail => tail.isEmpty
  | _ :: tail => restLastOnly tail

/-! ## Helper lemmas -/

theorem lookupFrame_setVal_self (f : Frame) (name : String) (v : Value) :
    lookupFrame (setVal f name v) name = some v := by
  induction f with
  | nil => simp [setVal, lookupFrame]
  | cons kv rest ih =>
    by_cases h : kv.1 = name
    · simp [setVal, lookupFrame, h]
    · simp [setVal, lookupFrame, h, ih]

theorem getValue_spec (name : String) (env : Env) :
    getValue name env =
      match envLookup name env with
      | some v => Except.ok v
      | none => Except.error (referenceError name) := by
  induction env with
  | root values =>
    cases h : lookupFrame values name <;> simp [getValue, envLookup, h]
  | frame values prev ih =>
    cases h : lookupFrame values name <;> simp [getValue, envLookup, h, ih]

/-! ## Claim C7 -/

/-- C7: for every Identifier node whose name is unbound in the entire
environment chain, the Identifier evaluator calls `cerr` with an exception
whose `location` field is the Identifier node (so the success continuation
is never called: the outcome is `COut.error`); when the name is bound, `c`
receives the bound value.  The chain walk `getValue` is modelled from the
spec. -/
theorem c7_identifier_lookup (name : String) (nodeId : Nat) (env : Env) :
    (envLookup name env = none →
      IdentifierEval name nodeId env =
        COut.error (Value.packet "ReferenceError" Value.undefined
          (some (name ++ " is not defined")) (some nodeId))) ∧
    (∀ v, envLookup name env = some v →
      IdentifierEval name nodeId env = COut.success v) := by
  constructor
  · intro h
    simp [IdentifierEval, getValue_spec, h, referenceError, setLoc]
  · intro v h
    simp [IdentifierEval, getValue_spec, h]

theorem c7_identifier_lookup_witness :
    (envLookup "b" (Env.frame [("a", Value.num 1)] (Env.root [])) = none ∧
      IdentifierEval "b" 3 (Env.frame [("a", Value.num 1)] (Env.root [])) =
        COut.error (Value.packet "ReferenceError" Value.undefined
          (some ("b" ++ " is not defined")) (some 3))) ∧
    (envLookup "a" (Env.frame [("a", Value.num 1)] (Env.root [])) = some (Value.num 1) ∧
      IdentifierEval "a" 3 (Env.frame [("a", Value.num 1)] (Env.root [])) =
        COut.success (Value.num 1)) :=
  ⟨⟨rfl, (c7_identifier_lookup "b" 3 (Env.frame [("a", Value.num 1)] (Env.root []))).1 rfl⟩,
   ⟨rfl, (c7_identifier_lookup "a" 3 (Env.frame [("a", Value.num 1)] (Env.root []))).2
      (Value.num 1) rfl⟩⟩

/-! ## Claim C9 -/

/-- C9 counterexample: the supplied config is not shallow-merged with the
default config of the context.  With a context whose default config carries
an `onError` hook and a supplied config without one, the config in force at
dispatch has no `onError` hook, while the shallow merge the claim describes
would keep the hook of the context. -/
theorem c9_counterexample :
    ((MetaesContext.evaluate
        { environment := Env.root [],
          config := { interceptor := none, scriptId := none, onError := some 7 } }
        (some { values := [] })
        (some { interceptor := none, scriptId := none, onError := none })
        0).1.config.onError = none) ∧
    ((mergeConfigs
        { interceptor := none, scriptId := none, onError := some 7 }
        { interceptor := none, scriptId := none, onError := none }).onError = some 7) :=
  ⟨rfl, rfl⟩

/-- C9 (amended): with an environment argument supplied, evaluation runs in a
frame whose `prev` is the root environment of the context and whose bindings
come from the argument; the supplied config is used in place of the default
config of the context (a shallow copy, not a merge: its absent fields do not
fall back to the default config), a no-op interceptor is installed when
absent and a scriptId is assigned when absent. -/
theorem c9_context_evaluate (ctx : MetaesContext) (eb : EnvironmentBase)
    (cfg : EvalConfig) (counter : Nat) :
    ((ctx.evaluate (some eb) (some cfg) counter).1.env =
        Env.frame eb.values ctx.environment) ∧
    ((ctx.evaluate (some eb) (some cfg) counter).1.config.onError = cfg.onError) ∧
    ((ctx.evaluate (some eb) (some cfg) counter).1.config.interceptor =
        some ((cfg.interceptor).getD Interceptor.noop)) ∧
    ((ctx.evaluate (some eb) (some cfg) counter).1.config.scriptId =
        some ((cfg.scriptId).getD (toString counter))) := by
  cases cfg with
  | mk i s o =>
    cases i <;> cases s <;>
      simp [MetaesContext.evaluate, metaesEval, installInterceptor]

/-! ## Claim C10 -/

/-- C10: `metaesEval` mutates the caller-supplied config record in place
(mutation is modelled by the updated record the call returns): with
`interceptor` absent a no-op interceptor is written into it, with `scriptId`
absent a fresh id from the global counter is written into it and the counter
is bumped; a second call sharing the same (now updated) record keeps the
scriptId of the first call and does not advance the counter, so both calls
dispatch under the same scriptId. -/
theorem c10_config_mutation (envA : EnvArg) (cfg : EvalConfig) (counter : Nat)
    (hI : cfg.interceptor = none) (hS : cfg.scriptId = none) :
    ((metaesEval envA cfg counter).2.1.interceptor = some Interceptor.noop) ∧
    ((metaesEval envA cfg counter).2.1.scriptId = some (toString counter)) ∧
    ((metaesEval envA cfg counter).2.2 = counter + 1) ∧
    ((metaesEval envA ((metaesEval envA cfg counter).2.1)
        ((metaesEval envA cfg counter).2.2)).2.1.scriptId = some (toString counter)) ∧
    ((metaesEval envA ((metaesEval envA cfg counter).2.1)
        ((metaesEval envA cfg counter).2.2)).2.2 = counter + 1) ∧
    ((metaesEval envA ((metaesEval envA cfg counter).2.1)
        ((metaesEval envA cfg counter).2.2)).1.config.scriptId =
      (metaesEval envA cfg counter).1.config.scriptId) := by
  cases cfg with
  | mk i s o =>
    cases hI
    cases hS
    simp [metaesEval, installInterceptor]

theorem c10_config_mutation_witness :
    ((metaesEval (EnvArg.bare []) { interceptor := none, scriptId := none, onError := none }
        0).2.1.interceptor = some Interceptor.noop) ∧
    ((metaesEval (EnvArg.bare []) { interceptor := none, scriptId := none, onError := none }
        0).2.1.scriptId = some (toString 0)) ∧
    ((metaesEval (EnvArg.bare []) { interceptor := none, scriptId := none, onError := none }
        0).2.2 = 0 + 1) ∧
    ((metaesEval (EnvArg.bare [])
        ((metaesEval (EnvArg.bare []) { interceptor := none, scriptId := none, onError := none }
            0).2.1)
        ((metaesEval (EnvArg.bare []) { interceptor := none, scriptId := none, onError := none }
            0).2.2)).2.1.scriptId = some (toString 0)) ∧
    ((metaesEval (EnvArg.bare [])
        ((metaesEval (EnvArg.bare []) { interceptor := none, scriptId := none, onError := none }
            0).2.1)
        ((metaesEval (EnvArg.bare []) { interceptor := none, scriptId := none, onError := none }
            0).2.2)).2.2 = 0 + 1) ∧
    ((metaesEval (EnvArg.bare [])
        ((metaesEval (EnvArg.bare []) { interceptor := none, scriptId := none, onError := none }
            0).2.1)
        ((metaesEval (EnvArg.bare []) { interceptor := none, scriptId := none, onError := none }
            0).2.2)).1.config.scriptId =
      (metaesEval (EnvArg.bare []) { interceptor := none, scriptId := none, onError := none }
        0).1.config.scriptId) :=
  c10_config_mutation (EnvArg.bare [])
    { interceptor := none, scriptId := none, onError := none } 0 rfl rfl

/-! ## Claim C3 -/

theorem bindParamsGo_eq_stop (ps : List Param) (h : restLastOnly ps = true) :
    ∀ args i acc, bindParamsGo ps args i acc = paramBindStopGo ps args i acc := by
  induction ps with
  | nil => intro args i acc; rfl
  | cons p tail ih =>
    cases p with
    | ident name =>
      intro args i acc
      simp only [restLastOnly] at h
      simp only [bindParamsGo, paramBindStopGo]
      exact ih h args (i + 1) _
    | restElem name =>
      intro args i acc
      simp only [restLastOnly] at h
      cases tail with
      | nil => rfl
      | cons q qs => simp [List.isEmpty] at h
    | other nid t =>
      intro args i acc
      rfl

theorem bindParamsGo_idents_rest (names : List String) :
    ∀ (args : List Value) (i : Nat) (acc : Frame) (r : String),
      ∃ fr, bindParamsGo (names.map Param.ident ++ [Param.restElem r]) args i acc =
          Except.ok fr ∧
        lookupFrame fr r = some (Value.arr (args.drop (i + names.length))) := by
  induction names with
  | nil =>
    intro args i acc r
    refine ⟨setVal acc r (Value.arr (args.drop i)), rfl, ?_⟩
    simp [lookupFrame_setVal_self]
  | cons n ns ih =>
    intro args i acc r
    obtain ⟨fr, hfr, hlook⟩ :=
      ih args (i + 1) (setVal acc n (args.getD i Value.undefined)) r
    refine ⟨fr, hfr, ?_⟩
    have harith : i + 1 + ns.length = i + (ns.length + 1) := by omega
    rw [harith] at hlook
    simpa using hlook

/-- C3 counterexample: the binding loop does not stop at a RestElement.  On
the parameter list `[...r, x]` with a single argument `5`, the code binds the
identifier `x` that follows the rest element (to `args[0] = 5`), while the
binding procedure the claim describes (stop at the RestElement) leaves `x`
unbound. -/
theorem c3_counterexample :
    ((bindParams [Param.restElem "r", Param.ident "x"] [Value.num 5]
        Value.undefined).toOption.map (fun fr => lookupFrame fr "x") =
      some (some (Value.num 5))) ∧
    ((paramBindStop [Param.restElem "r", Param.ident "x"] [Value.num 5]
        Value.undefined).toOption.map (fun fr => lookupFrame fr "x") =
      some none) :=
  ⟨rfl, rfl⟩

/-- C3 (amended): parameters are bound left-to-right into the new frame; an
Identifier parameter is bound to `args[i]` with `i` incremented; a
RestElement parameter is bound to `args.slice(i)` — an empty host array, not
absent, when no extra arguments remain — with `i` unchanged, and the loop
continues with any following parameters instead of stopping.  When every
RestElement is in last position (the only shape a parser produces), this
coincides with the stop-at-RestElement procedure the claim describes. -/
theorem c3_param_binding (ps : List Param) (args : List Value) (thisObj : Value)
    (h : restLastOnly ps = true) :
    (bindParams ps args thisObj = paramBindStop ps args thisObj) ∧
    (∀ (names : List String) (r : String),
      ps = names.map Param.ident ++ [Param.restElem r] →
      ∃ fr, bindParams ps args thisObj = Except.ok fr ∧
        lookupFrame fr r = some (Value.arr (args.drop names.length)) ∧
        (args.length ≤ names.length → lookupFrame fr r = some (Value.arr []))) := by
  constructor
  · exact bindParamsGo_eq_stop ps h args 0 _
  · intro names r hps
    subst hps
    obtain ⟨fr, hfr, hlook⟩ :=
      bindParamsGo_idents_rest names args 0
        [("this", thisObj), ("arguments", Value.arr args)] r
    rw [Nat.zero_add] at hlook
    refine ⟨fr, hfr, hlook, ?_⟩
    intro hle
    rw [List.drop_eq_nil_of_le hle] at hlook
    exact hlook

theorem c3_param_binding_witness :
    (restLastOnly [Param.ident "x", Param.restElem "r"] = true) ∧
    (bindParams [Param.ident "x", Param.restElem "r"] [Value.num 5] Value.undefined =
      paramBindStop [Param.ident "x", Param.restElem "r"] [Value.num 5] Value.undefined) ∧
    (∃ fr, bindParams [Param.ident "x", Param.restElem "r"] [Value.num 5]
          Value.undefined = Except.ok fr ∧
        lookupFrame fr "r" = some (Value.arr ([Value.num 5].drop 1)) ∧
        ([Value.num 5].length ≤ 1 → lookupFrame fr "r" = some (Value.arr []))) :=
  ⟨rfl,
   (c3_param_binding [Param.ident "x", Param.restElem "r"] [Value.num 5]
      Value.undefined rfl).1,
   (c3_param_binding [Param.ident "x", Param.restElem "r"] [Value.num 5]
      Value.undefined rfl).2 ["x"] "r" rfl⟩

/-! ## Claim C4 -/

theorem bindParamsGo_error_of_other (pre : List Param)
    (hs : ∀ q ∈ pre, isSimpleParam q = true) :
    ∀ (tail : List Param) (nid : Nat) (t : String) (args : List Value) (i : Nat)
      (acc : Frame),
      bindParamsGo (pre ++ Param.other nid t :: tail) args i acc =
        Except.error (NotImplementedException (paramErrorMsg t) (some nid)) := by
  induction pre with
  | nil => intro tail nid t args i acc; rfl
  | cons p ps ih =>
    intro tail nid t args i acc
    have hps : ∀ q ∈ ps, isSimpleParam q = true := by
      intro q hq; exact hs q (List.mem_cons_of_mem p hq)
    cases p with
    | ident name =>
      simp only [List.cons_append, bindParamsGo]
      exact ih hps tail nid t args (i + 1) _
    | restElem name =>
      simp only [List.cons_append, bindParamsGo]
      exact ih hps tail nid t args i _
    | other nid2 t2 =>
      have := hs (Param.other nid2 t2) (List.mem_cons_self _ _)
      simp [isSimpleParam] at this

/-- C4: when the parameter list contains a parameter of a pattern other than
Identifier or RestElement (after well-supported parameters),
`evaluateMetaFunction` raises a `NotImplementedException` carrying the
parameter node as location, notifies `config.onError` with it exactly when
an `onError` hook is configured, and the outer catch reports the exception
through `cerr`.  The trace contains no `evalBody` event and no success-side
event: the function body is never evaluated, whatever its behavior `body`
would have been. -/
theorem c4_unsupported_param (m : MetaesFunction) (thisObj : Value)
    (args : List Value) (body : List BodyStep) (pre tail : List Param) (nid : Nat)
    (t : String) (hp : m.e.params = pre ++ Param.other nid t :: tail)
    (hs : ∀ q ∈ pre, isSimpleParam q = true) :
    evaluateMetaFunction m thisObj args body =
      (if m.config.present && m.config.hasOnError
       then [Event.onErrorEv (NotImplementedException (paramErrorMsg t) (some nid))]
       else [])
        ++ [Event.callCerr (NotImplementedException (paramErrorMsg t) (some nid))] := by
  have hb : bindParams m.e.params args thisObj =
      Except.error (NotImplementedException (paramErrorMsg t) (some nid)) := by
    rw [hp]
    exact bindParamsGo_error_of_other pre hs tail nid t args 0 _
  simp [evaluateMetaFunction, hb]

theorem c4_unsupported_param_witness :
    evaluateMetaFunction
        { e := { nodeId := 0, params := [Param.other 3 "ObjectPattern"] },
          closure := Env.root [],
          config := { present := true, hasOnError := true } }
        Value.undefined [] [] =
      (if true && true
       then [Event.onErrorEv
          (NotImplementedException (paramErrorMsg "ObjectPattern") (some 3))]
       else [])
        ++ [Event.callCerr
          (NotImplementedException (paramErrorMsg "ObjectPattern") (some 3))] :=
  c4_unsupported_param
    { e := { nodeId := 0, params := [Param.other 3 "ObjectPattern"] },
      closure := Env.root [],
      config := { present := true, hasOnError := true } }
    Value.undefined [] [] [] [] 3 "ObjectPattern" rfl
    (by intro q hq; cases hq)

/-! ## Claim C5 -/

theorem runBody_countExit (cfg : MFConfig) (eId : Nat) (body : List BodyStep) :
    ((runBody cfg eId true body).1.countP isExitEv = 0) ∧
    ((runBody cfg eId false body).1.countP isExitEv ≤ 1) := by
  induction body with
  | nil => simp [runBody]
  | cons s steps ih =>
    obtain ⟨iht, ihf⟩ := ih
    cases s with
    | success v =>
      constructor
      · simp [runBody, interceptorAfter, isExitEv, List.countP_cons, List.countP_append, iht]
      · cases hcp : cfg.present <;>
          simp [runBody, interceptorAfter, isExitEv, List.countP_cons, List.countP_append,
            iht, hcp]
    | err t v msg loc =>
      by_cases ht : t = "ReturnStatement"
      · subst ht
        constructor
        · simp [runBody, interceptorAfter, isExitEv, List.countP_cons, List.countP_append,
            iht]
        · cases hcp : cfg.present <;>
            simp [runBody, interceptorAfter, isExitEv, List.countP_cons, List.countP_append,
              iht, hcp]
      · constructor <;> simp [runBody, interceptorAfter, isExitEv, List.countP_cons, ht]

/-- C5: within a single `evaluateMetaFunction` dispatch, the exit-phase
interceptor event for the function node is emitted at most once, for every
body behavior — including evaluators that call both continuations, or call a
continuation several times (any list of completion signals). -/
theorem c5_exit_at_most_once (m : MetaesFunction) (thisObj : Value)
    (args : List Value) (body : List BodyStep) :
    countExit (evaluateMetaFunction m thisObj args body) ≤ 1 := by
  unfold countExit
  cases hb : bindParams m.e.params args thisObj with
  | error errVal =>
    cases h1 : (m.config.present && m.config.hasOnError) <;>
      simp [evaluateMetaFunction, hb, isExitEv, List.countP_cons, List.countP_append, h1]
  | ok fr =>
    have h := (runBody_countExit m.config m.e.nodeId body).2
    rcases hr : runBody m.config m.e.nodeId false body with ⟨evs, flag, thrown⟩
    rw [hr] at h
    simp only at h
    cases thrown <;> cases hp : m.config.present <;>
      simp [evaluateMetaFunction, hb, hr, isExitEv, List.countP_cons, List.countP_append,
        hp] <;>
      omega

/-! ## Claim C6 -/

/-- C6: when the body completes successfully, the success continuation is
called with the result strictly before the exit-phase interceptor event is
emitted: the dispatch trace is enter, body evaluation, `c(result)`, exit, in
this order. -/
theorem c6_c_before_exit (m : MetaesFunction) (thisObj : Value) (args : List Value)
    (v : Value) (fr : Frame)
    (hb : bindParams m.e.params args thisObj = Except.ok fr)
    (hc : m.config.present = true) :
    evaluateMetaFunction m thisObj args [BodyStep.success v] =
      [Event.enterEv, Event.evalBody, Event.callC v, Event.exitEv v] := by
  simp [evaluateMetaFunction, hb, runBody, interceptorAfter, hc]

theorem c6_c_before_exit_witness :
    evaluateMetaFunction
        { e := { nodeId := 0, params := [] }, closure := Env.root [],
          config := { present := true, hasOnError := false } }
        Value.undefined [] [BodyStep.success (Value.num 7)] =
      [Event.enterEv, Event.evalBody, Event.callC (Value.num 7),
       Event.exitEv (Value.num 7)] :=
  c6_c_before_exit
    { e := { nodeId := 0, params := [] }, closure := Env.root [],
      config := { present := true, hasOnError := false } }
    Value.undefined [] (Value.num 7)
    [("this", Value.undefined), ("arguments", Value.arr [])] rfl rfl

/-! ## Claim C2 -/

/-- C2 counterexample: when the body completes through the error continuation
with a packet whose type is not ReturnStatement, the error continuation of
the caller is invoked twice — once with the packet, and once more with the
raw packet value rethrown by the handler and caught by the outer catch — and
the exit interceptor event is never emitted on this path (the rethrow skips
the `_interceptorAfter` call).  The claim predicts exactly one `cerr` call
followed by an exit emission. -/
theorem c2_counterexample :
    ((evaluateMetaFunction
        { e := { nodeId := 0, params := [] }, closure := Env.root [],
          config := { present := true, hasOnError := false } }
        Value.undefined []
        [BodyStep.err "ThrowStatement" (Value.num 1) none none]).countP isCerrEv = 2) ∧
    (countExit (evaluateMetaFunction
        { e := { nodeId := 0, params := [] }, closure := Env.root [],
          config := { present := true, hasOnError := false } }
        Value.undefined []
        [BodyStep.err "ThrowStatement" (Value.num 1) none none]) = 0) :=
  ⟨rfl, rfl⟩

/-- C2 (amended): when the body completes through the error continuation with
a packet `p`: if `p.type` is ReturnStatement, `c(p.value)` is called, `cerr`
is not called, and the exit interceptor event is then emitted.  For any
other packet type, `p.location` is set to the function node and `p` is
forwarded to `cerr`; then the handler rethrows `p.value`, so the exit event
is not emitted on this path and the outer catch passes the raw value to
`cerr` a second time. -/
theorem c2_error_continuation (m : MetaesFunction) (thisObj : Value)
    (args : List Value) (fr : Frame)
    (hb : bindParams m.e.params args thisObj = Except.ok fr)
    (hc : m.config.present = true) :
    (∀ v msg loc,
      evaluateMetaFunction m thisObj args [BodyStep.err "ReturnStatement" v msg loc] =
        [Event.enterEv, Event.evalBody, Event.callC v, Event.exitEv v]) ∧
    (∀ t v msg loc, t ≠ "ReturnStatement" →
      evaluateMetaFunction m thisObj args [BodyStep.err t v msg loc] =
        [Event.enterEv, Event.evalBody,
         Event.callCerr (Value.packet t v msg (some m.e.nodeId)),
         Event.callCerr v]) := by
  constructor
  · intro v msg loc
    simp [evaluateMetaFunction, hb, runBody, interceptorAfter, hc]
  · intro t v msg loc ht
    simp [evaluateMetaFunction, hb, runBody, interceptorAfter, hc, ht]

theorem c2_error_continuation_witness :
    (evaluateMetaFunction
        { e := { nodeId := 4, params := [] }, closure := Env.root [],
          config := { present := true, hasOnError := false } }
        Value.undefined [] [BodyStep.err "ReturnStatement" (Value.num 9) none none] =
      [Event.enterEv, Event.evalBody, Event.callC (Value.num 9),
       Event.exitEv (Value.num 9)]) ∧
    (evaluateMetaFunction
        { e := { nodeId := 4, params := [] }, closure := Env.root [],
          config := { present := true, hasOnError := false } }
        Value.undefined [] [BodyStep.err "ThrowStatement" (Value.num 9) none none] =
      [Event.enterEv, Event.evalBody,
       Event.callCerr (Value.packet "ThrowStatement" (Value.num 9) none (some 4)),
       Event.callCerr (Value.num 9)]) :=
  ⟨(c2_error_continuation
      { e := { nodeId := 4, params := [] }, closure := Env.root [],
        config := { present := true, hasOnError := false } }
      Value.undefined [] [("this", Value.undefined), ("arguments", Value.arr [])]
      rfl rfl).1 (Value.num 9) none none,
   (c2_error_continuation
      { e := { nodeId := 4, params := [] }, closure := Env.root [],
        config := { present := true, hasOnError := false } }
      Value.undefined [] [("this", Value.undefined), ("arguments", Value.arr [])]
      rfl rfl).2 "ThrowStatement" (Value.num 9) none none (by decide)⟩

/-! ## Claim C1 -/

/-- C1 counterexample: a meta-function body that completes through the error
continuation with a packet whose value is the falsy number `0`.  The claim
demands that the host callable throw `0`; instead the wrapper returns
normally with `undefined`, because the final `if (error)` test is a
truthiness test (and the rethrown raw value has overwritten the recorded
error with its absent `value` property). -/
theorem c1_counterexample :
    (createMetaFunctionWrapper
        { e := { nodeId := 0, params := [] }, closure := Env.root [],
          config := { present := true, hasOnError := false } }
        Value.undefined []
        [BodyStep.err "ThrowStatement" (Value.num 0) none none] =
      WrapperOutcome.returns Value.undefined) ∧
    (createMetaFunctionWrapper
        { e := { nodeId := 0, params := [] }, closure := Env.root [],
          config := { present := true, hasOnError := false } }
        Value.undefined []
        [BodyStep.err "ThrowStatement" (Value.num 0) none none] ≠
      WrapperOutcome.throws (Value.num 0)) :=
  ⟨rfl, by intro h; exact nomatch h⟩

/-- C1 (amended): invoking the host callable produced by
`createMetaFunctionWrapper` drives `evaluateMetaFunction` to completion and
synchronously returns the success result when the body completes normally or
via a ReturnStatement packet.  When the body completes with any other error
packet, the wrapper does not throw the packet value: the rethrow in the
error path makes the outer catch feed the raw value back into the wrapper
error continuation, which overwrites the recorded error with the `value`
property of that raw value; for any packet value that is a number, string,
boolean or array this property is `undefined`, so the truthiness test fails
and the wrapper returns `undefined` instead of throwing. -/
theorem c1_wrapper_behavior (m : MetaesFunction) (thisObj : Value)
    (args : List Value) (fr : Frame)
    (hb : bindParams m.e.params args thisObj = Except.ok fr) :
    (∀ v, createMetaFunctionWrapper m thisObj args [BodyStep.success v] =
      WrapperOutcome.returns v) ∧
    (∀ v msg loc,
      createMetaFunctionWrapper m thisObj args [BodyStep.err "ReturnStatement" v msg loc] =
        WrapperOutcome.returns v) ∧
    (∀ t v msg loc, t ≠ "ReturnStatement" → valueProp v = some Value.undefined →
      createMetaFunctionWrapper m thisObj args [BodyStep.err t v msg loc] =
        WrapperOutcome.returns Value.undefined) := by
  refine ⟨?_, ?_, ?_⟩
  · intro v
    cases hp : m.config.present <;>
      simp [createMetaFunctionWrapper, evaluateMetaFunction, hb, runBody,
        interceptorAfter, wrapperGo, truthy, hp]
  · intro v msg loc
    cases hp : m.config.present <;>
      simp [createMetaFunctionWrapper, evaluateMetaFunction, hb, runBody,
        interceptorAfter, wrapperGo, truthy, hp]
  · intro t v msg loc ht hv
    simp only [valueProp] at hv
    cases hp : m.config.present <;>
      simp [createMetaFunctionWrapper, evaluateMetaFunction, hb, runBody,
        interceptorAfter, wrapperGo, truthy, valueProp, hp, ht, hv]

theorem c1_wrapper_behavior_witness :
    (createMetaFunctionWrapper
        { e := { nodeId := 0, params := [] }, closure := Env.root [],
          config := { present := true, hasOnError := false } }
        Value.undefined [] [BodyStep.success (Value.num 7)] =
      WrapperOutcome.returns (Value.num 7)) ∧
    (createMetaFunctionWrapper
        { e := { nodeId := 0, params := [] }, closure := Env.root [],
          config := { present := true, hasOnError := false } }
        Value.undefined [] [BodyStep.err "ReturnStatement" (Value.num 8) none none] =
      WrapperOutcome.returns (Value.num 8)) ∧
    (createMetaFunctionWrapper
        { e := { nodeId := 0, params := [] }, closure := Env.root [],
          config := { present := true, hasOnError := false } }
        Value.undefined [] [BodyStep.err "ThrowStatement" (Value.str "boom") none none] =
      WrapperOutcome.returns Value.undefined) :=
  ⟨(c1_wrapper_behavior
      { e := { nodeId := 0, params := [] }, closure := Env.root [],
        config := { present := true, hasOnError := false } }
      Value.undefined [] [("this", Value.undefined), ("arguments", Value.arr [])]
      rfl).1 (Value.num 7),
   (c1_wrapper_behavior
      { e := { nodeId := 0, params := [] }, closure := Env.root [],
        config := { present := true, hasOnError := false } }
      Value.undefined [] [("this", Value.undefined), ("arguments", Value.arr [])]
      rfl).2.1 (Value.num 8) none none,
   (c1_wrapper_behavior
      { e := { nodeId := 0, params := [] }, closure := Env.root [],
        config := { present := true, hasOnError := false } }
      Value.undefined [] [("this", Value.undefined), ("arguments", Value.arr [])]
      rfl).2.2 "ThrowStatement" (Value.str "boom") none none (by decide) rfl⟩

/-! ## Claim C8 -/

/-- C8: `SetProperty` applies the corresponding compound host assignment to
`object[property]` and passes the assigned result to `c` when the operator
is one of the twelve supported assignment operators (those for which
`compoundOp` yields a host operation); for any other operator it reports a
`NotImplementedException` through `cerr` and leaves the object unchanged.
The statement is universal in the host operations, as the evaluator
delegates the arithmetic itself to the host. -/
theorem c8_set_property (ops : HostOps) (obj : Frame) (property : String)
    (value : Value) (operator : String) :
    (∀ f, compoundOp ops operator = some f →
      SetProperty ops obj property value operator =
        (COut.success (f (getProp obj property) value),
         setVal obj property (f (getProp obj property) value))) ∧
    (compoundOp ops operator = none →
      SetProperty ops obj property value operator =
        (COut.error (NotImplementedException
          ("Operator '" ++ operator ++ "' is not supported.") none), obj)) := by
  constructor
  · intro f hf
    unfold compoundOp at hf
    split at hf <;> first
      | (injection hf with hfe; subst hfe; simp [SetProperty, applyAssign])
      | exact nomatch hf
  · intro hn
    unfold compoundOp at hn
    split at hn <;> try (cases hn)
    unfold SetProperty
    split <;> simp_all

theorem c8_set_property_witness :
    (compoundOp demoOps "+=" = some demoOps.add ∧
      SetProperty demoOps [("x", Value.num 2)] "x" (Value.num 3) "+=" =
        (COut.success (demoOps.add (getProp [("x", Value.num 2)] "x") (Value.num 3)),
         setVal [("x", Value.num 2)] "x"
           (demoOps.add (getProp [("x", Value.num 2)] "x") (Value.num 3)))) ∧
    (compoundOp demoOps "**=" = none ∧
      SetProperty demoOps [("x", Value.num 2)] "x" (Value.num 3) "**=" =
        (COut.error (NotImplementedException
          ("Operator '" ++ "**=" ++ "' is not supported.") none),
         [("x", Value.num 2)])) :=
  ⟨⟨rfl, (c8_set_property demoOps [("x", Value.num 2)] "x" (Value.num 3) "+=").1
      demoOps.add rfl⟩,
   ⟨rfl, (c8_set_property demoOps [("x", Value.num 2)] "x" (Value.num 3) "**=").2 rfl⟩⟩

end Metaes
